import Mathlib

/-!
Verification of the slstatus netspeeds component (src/components/netspeeds.c).

The component reads cumulative rx/tx byte counters for a network
interface, remembers the last sample in a function-local static
variable, and formats the delta as a bytes-per-second rate.

Shallow embedding conventions:
- C uintmax_t arithmetic is Nat with explicit reduction mod 2^64.
- The combined esnprintf + pscanf counter acquisition (both live in
  util.c, which is not part of this repository snapshot under src/) is
  a single `Option Nat` input to each call: `none` when the path cannot
  be formatted, the file read fails, or parsing fails; `some c` when
  the parsed counter is `c`.
- Each call returns the produced output (`Option String`, `none` for
  the C NULL result) together with the new value of the static
  variable, so a run is explicit state passing.
-/

/-- 2^64, the modulus of C uintmax_t arithmetic on the target platforms. -/
def UINTMAX : Nat := 18446744073709551616

/-- C unsigned subtraction `a - b` on uintmax_t, for a, b < 2^64. -/
def wrapSub (a b : Nat) : Nat := (UINTMAX + a - b) % UINTMAX

/-- The rate expression of netspeeds.c lines 32 and 58:
`(bytes - oldbytes) * 1000 / interval` in C uintmax_t arithmetic
(the subtraction and the product both wrap mod 2^64; the division by
the promoted unsigned interval is exact). -/
def netspeed_rate (bytes oldbytes interval : Nat) : Nat :=
  wrapSub bytes oldbytes * 1000 % UINTMAX / interval

/-- Modelled from the spec: `format_human(rate, base)` of util.c (not
under src/) scales the rate into the largest unit such that the
displayed magnitude is below the base. `fmt_level num base` is the
number of divisions by `base` applied, i.e. the least i with
num / base^i < base (0 when base < 2). -/
def fmt_level (num base : Nat) : Nat :=
  if h : 2 ≤ base ∧ base ≤ num then fmt_level (num / base) base + 1 else 0
termination_by num
decreasing_by
  exact Nat.div_lt_self (by omega) (by omega)

/-- Modelled from the spec: the scaled magnitude in tenths, i.e. the
one-decimal-place fixed-point value num / base^level. -/
def fmt_scaled (num base : Nat) : Nat := num * 10 / base ^ fmt_level num base

/-- Modelled from the spec: the numeral part of the formatted rate,
rendered with one decimal place. -/
def fmt_numeral (num base : Nat) : String :=
  toString (fmt_scaled num base / 10) ++ "." ++ toString (fmt_scaled num base % 10)

/-- Modelled from the spec: the unit suffixes B, K, M, G, … -/
def unit_suffix : Nat → String
  | 0 => "B"
  | 1 => "K"
  | 2 => "M"
  | 3 => "G"
  | 4 => "T"
  | 5 => "P"
  | 6 => "E"
  | 7 => "Z"
  | _ + 8 => "Y"

/-- Modelled from the spec: `fmt_human` of util.c (not under src/),
a deterministic pure function of the rate and the base. -/
def fmt_human (num base : Nat) : String :=
  fmt_numeral num base ++ " " ++ unit_suffix (fmt_level num base)

/-- One call to the Linux `netspeed_rx` (netspeeds.c lines 10-34).
`read` is the acquisition result (esnprintf + pscanf of
/sys/class/net/interface/statistics/rx_bytes), `rxbytes` the incoming
value of the static variable. Returns the output and the new static
value. On acquisition failure the static is untouched; on success the
parsed counter is stored, and a rate is emitted only when the old
value was nonzero. -/
def netspeed_rx (read : Option Nat) (interval : Nat) (rxbytes : Nat) :
    Option String × Nat :=
  let oldrxbytes := rxbytes
  match read with
  | none => (none, rxbytes)
  | some c =>
    if oldrxbytes = 0 then (none, c)
    else (some (fmt_human (netspeed_rate c oldrxbytes interval) 1024), c)

/-- One call to the Linux `netspeed_tx` (netspeeds.c lines 36-60);
same structure as `netspeed_rx` with its own static variable. -/
def netspeed_tx (read : Option Nat) (interval : Nat) (txbytes : Nat) :
    Option String × Nat :=
  let oldtxbytes := txbytes
  match read with
  | none => (none, txbytes)
  | some c =>
    if oldtxbytes = 0 then (none, c)
    else (some (fmt_human (netspeed_rate c oldtxbytes interval) 1024), c)

/-- A sequence of calls to `netspeed_rx` (fixed interface): the list of
per-tick acquisition results is threaded through the static state. -/
def netspeed_rx_run (interval : Nat) : List (Option Nat) → Nat → List (Option String) × Nat
  | [], st => ([], st)
  | r :: rs, st =>
    let p := netspeed_rx r interval st
    let q := netspeed_rx_run interval rs p.2
    (p.1 :: q.1, q.2)

/-- A sequence of calls to `netspeed_tx` (fixed interface). -/
def netspeed_tx_run (interval : Nat) : List (Option Nat) → Nat → List (Option String) × Nat
  | [], st => ([], st)
  | r :: rs, st =>
    let p := netspeed_tx r interval st
    let q := netspeed_tx_run interval rs p.2
    (p.1 :: q.1, q.2)

/-- A sequence of calls to `netspeed_rx` with explicit interface names:
each call is (interface, acquisition result for that interface at that
tick). As in the C source, the interface name only selects which sysfs
file is read; the static variable is one process-wide cell shared by
all interfaces. -/
def netspeed_rx_calls (interval : Nat) : List (String × Option Nat) → Nat → List (Option String) × Nat
  | [], st => ([], st)
  | c :: cs, st =>
    let p := netspeed_rx c.2 interval st
    let q := netspeed_rx_calls interval cs p.2
    (p.1 :: q.1, q.2)

/-- Modelled from the spec: `run_command` (util.c, not under src/) is an
opaque collaborator returning the first up, broadcast-capable interface
name or failure; `netspeed_get_active_interface` (netspeeds.c lines
64-68) just forwards its result. -/
def netspeed_get_active_interface (cmd_result : Option String) : Option String :=
  cmd_result

/-- `netspeed_rx_auto` (netspeeds.c lines 70-80): discover the active
interface; on failure return NULL without reading any counter, else
call `netspeed_rx` on it. `read` maps an interface name to the
acquisition result for its rx_bytes file. -/
def netspeed_rx_auto (cmd_result : Option String) (read : String → Option Nat)
    (interval : Nat) (rxbytes : Nat) : Option String × Nat :=
  match netspeed_get_active_interface cmd_result with
  | none => (none, rxbytes)
  | some interface => netspeed_rx (read interface) interval rxbytes

/-- `netspeed_tx_auto` (netspeeds.c lines 82-92). -/
def netspeed_tx_auto (cmd_result : Option String) (read : String → Option Nat)
    (interval : Nat) (txbytes : Nat) : Option String × Nat :=
  match netspeed_get_active_interface cmd_result with
  | none => (none, txbytes)
  | some interface => netspeed_tx (read interface) interval txbytes

/-- One getifaddrs list entry of the BSD variant: the interface name and
the optional if_data statistics (ifi_ibytes, ifi_obytes); `none` models
a NULL ifa_data pointer. -/
structure IfEntry where
  ifa_name : String
  ifa_data : Option (Nat × Nat)

/-- The loop of the BSD `netspeed_rx` (netspeeds.c lines 117-122):
starting from rxbytes = 0 and if_ok = 0, add ifi_ibytes of every entry
whose name matches and whose ifa_data is non-NULL, setting if_ok. -/
def bsd_rx_loop (interface : String) : Nat → Bool → List IfEntry → Nat × Bool
  | rxbytes, if_ok, [] => (rxbytes, if_ok)
  | rxbytes, if_ok, ifa :: rest =>
    if ifa.ifa_name = interface then
      match ifa.ifa_data with
      | some ifd => bsd_rx_loop interface ((rxbytes + ifd.1) % UINTMAX) true rest
      | none => bsd_rx_loop interface rxbytes if_ok rest
    else bsd_rx_loop interface rxbytes if_ok rest

/-- One call to the BSD `netspeed_rx` (netspeeds.c lines 100-134).
`ifal` is the getifaddrs result (`none` when getifaddrs fails). Note
that on a successful getifaddrs the static variable is first reset to 0
and then accumulated, so an interface-not-found failure leaves it 0. -/
def netspeed_rx_bsd (ifal : Option (List IfEntry)) (interval : Nat)
    (interface : String) (rxbytes0 : Nat) : Option String × Nat :=
  let oldrxbytes := rxbytes0
  match ifal with
  | none => (none, rxbytes0)
  | some l =>
    let r := bsd_rx_loop interface 0 false l
    if r.2 = false then (none, r.1)
    else if oldrxbytes = 0 then (none, r.1)
    else (some (fmt_human (netspeed_rate r.1 oldrxbytes interval) 1024), r.1)

/-- UINTMAX as a numeral, for omega. -/
lemma UINTMAX_eq : UINTMAX = 18446744073709551616 := rfl

/-- netspeed_tx has the same body as netspeed_rx, only its own static cell. -/
lemma netspeed_tx_eq_rx : netspeed_tx = netspeed_rx := rfl

lemma netspeed_tx_run_eq_rx_run (interval : Nat) (rs : List (Option Nat)) (st : Nat) :
    netspeed_tx_run interval rs st = netspeed_rx_run interval rs st := by
  induction rs generalizing st with
  | nil => rfl
  | cons r rs ih => simp [netspeed_tx_run, netspeed_rx_run, netspeed_tx_eq_rx, ih]

/-- A successful read stores the parsed counter in the static cell. -/
lemma netspeed_rx_state_some (c interval st : Nat) :
    (netspeed_rx (some c) interval st).2 = c := by
  by_cases h : st = 0 <;> simp [netspeed_rx, h]

/-- A successful read with nonzero previous sample emits the formatted rate. -/
lemma netspeed_rx_some_rate (c interval st : Nat) (h0 : st ≠ 0) :
    (netspeed_rx (some c) interval st).1 =
      some (fmt_human (netspeed_rate c st interval) 1024) := by
  simp [netspeed_rx, h0]

/-- Without wrap, the C subtraction is the exact difference. -/
lemma wrapSub_of_le (a b : Nat) (h : b ≤ a) (hlt : a - b < UINTMAX) :
    wrapSub a b = a - b := by
  unfold wrapSub
  rw [Nat.add_sub_assoc h, Nat.add_mod_left, Nat.mod_eq_of_lt hlt]

/-- Without wrap or product overflow, the C rate expression is the exact
mathematical value (current - previous) * 1000 / interval. -/
lemma netspeed_rate_exact (old c interval : Nat) (h : old ≤ c)
    (hof : (c - old) * 1000 < UINTMAX) :
    netspeed_rate c old interval = (c - old) * 1000 / interval := by
  have hU := UINTMAX_eq
  have hd : c - old < UINTMAX := by omega
  unfold netspeed_rate
  rw [wrapSub_of_le c old h hd, Nat.mod_eq_of_lt hof]

/-- The output of a run at position j+1 is the output of one call whose
previous sample is the counter read at position j. -/
lemma netspeed_rx_run_get (interval : Nat) (j : Nat) :
    ∀ (cs : List Nat) (st x y : Nat), cs[j]? = some x → cs[j + 1]? = some y →
      (netspeed_rx_run interval (cs.map some) st).1[j + 1]? =
        some ((netspeed_rx (some y) interval x).1) := by
  induction j with
  | zero =>
    intro cs st x y hx hy
    match cs with
    | [] => simp at hx
    | [a] => simp at hy
    | a :: b :: u =>
      have hxa : a = x := by simpa using hx
      have hyb : b = y := by simpa using hy
      subst hxa
      subst hyb
      simp [netspeed_rx_run, netspeed_rx_state_some]
  | succ j ih =>
    intro cs st x y hx hy
    match cs with
    | [] => simp at hx
    | a :: t =>
      have hx2 : t[j]? = some x := by simpa using hx
      have hy2 : t[j + 1]? = some y := by simpa using hy
      have hr := ih t (netspeed_rx (some a) interval st).2 x y hx2 hy2
      simpa [netspeed_rx_run] using hr

/-- C2: for every call in which the remembered previous sample equals 0
(the unset sentinel), netspeed_rx and netspeed_tx return NULL, even when
the counter read succeeds; in particular the first successful sample
after process start yields no rate. -/
theorem netspeed_c2 (read : Option Nat) (interval : Nat) :
    (netspeed_rx read interval 0).1 = none ∧
    (netspeed_tx read interval 0).1 = none := by
  cases read <;> simp [netspeed_rx, netspeed_tx]

/-- C8: when active-interface discovery fails, netspeed_rx_auto and
netspeed_tx_auto return NULL with the static state untouched, and the
result does not depend on the counter-read oracle at all (no read is
attempted). -/
theorem netspeed_c8 (read read2 : String → Option Nat) (interval st : Nat) :
    netspeed_rx_auto none read interval st = (none, st) ∧
    netspeed_rx_auto none read interval st = netspeed_rx_auto none read2 interval st ∧
    netspeed_tx_auto none read interval st = (none, st) ∧
    netspeed_tx_auto none read interval st = netspeed_tx_auto none read2 interval st :=
  ⟨rfl, rfl, rfl, rfl⟩

/-- C10: a successfully read counter value of exactly 0 is stored as 0,
which is the unset sentinel, so the next call returns NULL even though
two consecutive successful samples exist. -/
theorem netspeed_c10 (interval c st : Nat) :
    (netspeed_rx (some 0) interval st).2 = 0 ∧
    (netspeed_rx_run interval [some 0, some c] 0).1 = [none, none] ∧
    (netspeed_tx (some 0) interval st).2 = 0 ∧
    (netspeed_tx_run interval [some 0, some c] 0).1 = [none, none] := by
  refine ⟨?_, rfl, ?_, rfl⟩ <;> by_cases h : st = 0 <;>
    simp [netspeed_rx, netspeed_tx, h]

/-- C7 counterexample: at current = 1, previous = 2, interval = 1000 the
code computes the product with the wrapped delta in uintmax_t
arithmetic, so the product itself wraps mod 2^64 before the division;
the emitted rate therefore differs from the exact value
((current - previous) mod 2^64) * 1000 / interval stated by the claim. -/
theorem netspeed_c7_counterexample :
    (netspeed_rx (some 1) 1000 2).1 =
      some (fmt_human (netspeed_rate 1 2 1000) 1024) ∧
    netspeed_rate 1 2 1000 ≠ wrapSub 1 2 * 1000 / 1000 := by
  constructor
  · rfl
  · decide

/-- C7 amended: when the current counter is smaller than the remembered
previous counter, the subtraction underflows to 2^64 - (previous -
current) and the emitted rate is that wrapped delta times 1000, reduced
mod 2^64 again, divided by the interval; no special handling. -/
theorem netspeed_c7 (cur prev interval : Nat) (h0 : prev ≠ 0)
    (hlt : cur < prev) (hb : prev ≤ UINTMAX) :
    (netspeed_rx (some cur) interval prev).1 =
      some (fmt_human ((UINTMAX - (prev - cur)) * 1000 % UINTMAX / interval) 1024) := by
  rw [netspeed_rx_some_rate cur interval prev h0]
  have hU := UINTMAX_eq
  have h1 : wrapSub cur prev = UINTMAX - (prev - cur) := by
    unfold wrapSub
    have h2 : UINTMAX + cur - prev = UINTMAX - (prev - cur) := by omega
    rw [h2, Nat.mod_eq_of_lt (by omega)]
  unfold netspeed_rate
  rw [h1]

/-- C7 witness: the amended claim evaluated at current 1, previous 2,
interval 1000. -/
theorem netspeed_c7_witness :
    (netspeed_rx (some 1) 1000 2).1 =
      some (fmt_human ((UINTMAX - (2 - 1)) * 1000 % UINTMAX / 1000) 1024) :=
  netspeed_c7 1 2 1000 (by decide) (by decide) (by decide)

/-- C3 counterexample: two successive calls for distinct interfaces
share the single static cell: the second call (interface wlan0, which
has no previous sample of its own) emits a rate computed against the
sample read for eth0, instead of the NULL that per-interface state
would give. -/
theorem netspeed_c3_counterexample :
    netspeed_rx_calls 1000 [("eth0", some 100), ("wlan0", some 500)] 0 =
      ([none, some (fmt_human 400 1024)], 500) ∧
    some (fmt_human 400 1024) ≠ (none : Option String) := by
  constructor
  · rfl
  · simp

/-- C3 amended: the previous-sample state is kept per direction only:
each of netspeed_rx and netspeed_tx has a single process-wide static
cell shared by all interfaces, so a call computes its delta against the
last successful sample of that direction regardless of which interface
it belonged to; in particular a first call for a fresh interface right
after a successful call for a different interface emits a cross-interface
rate. -/
theorem netspeed_c3 (i1 i2 : String) (c1 c2 interval : Nat)
    (hne : i1 ≠ i2) (hc1 : c1 ≠ 0) :
    (netspeed_rx_calls interval [(i1, some c1), (i2, some c2)] 0).1 =
      [none, some (fmt_human (netspeed_rate c2 c1 interval) 1024)] := by
  simp [netspeed_rx_calls, netspeed_rx, hc1]

/-- C3 witness: the amended claim at interfaces eth0, wlan0 with reads
100 and 500 and interval 1000. -/
theorem netspeed_c3_witness :
    (netspeed_rx_calls 1000 [("eth0", some 100), ("wlan0", some 500)] 0).1 =
      [none, some (fmt_human (netspeed_rate 500 100 1000) 1024)] :=
  netspeed_c3 "eth0" "wlan0" 100 500 1000 (by decide) (by decide)

/-- If no list entry matches the interface with non-NULL data, the BSD
loop returns its accumulator and flag unchanged. -/
lemma bsd_loop_not_found (iface : String) (l : List IfEntry) :
    ∀ (acc : Nat) (ok : Bool),
      (∀ e ∈ l, ¬(e.ifa_name = iface ∧ e.ifa_data ≠ none)) →
      bsd_rx_loop iface acc ok l = (acc, ok) := by
  induction l with
  | nil => intro acc ok h; rfl
  | cons e t ih =>
    intro acc ok h
    have he := h e (List.mem_cons_self e t)
    have ht := fun x hx => h x (List.mem_cons_of_mem e hx)
    by_cases hn : e.ifa_name = iface
    · have hd : e.ifa_data = none := by
        by_contra hcon
        exact he ⟨hn, hcon⟩
      rw [bsd_rx_loop, if_pos hn, hd]
      exact ih acc ok ht
    · rw [bsd_rx_loop, if_neg hn]
      exact ih acc ok ht

/-- Once the found flag is set, the BSD loop keeps it set. -/
lemma bsd_loop_ok_true (iface : String) (l : List IfEntry) :
    ∀ acc : Nat, (bsd_rx_loop iface acc true l).2 = true := by
  induction l with
  | nil => intro acc; rfl
  | cons e t ih =>
    intro acc
    by_cases hn : e.ifa_name = iface
    · rw [bsd_rx_loop, if_pos hn]
      cases hd : e.ifa_data with
      | none => exact ih acc
      | some ifd => exact ih _
    · rw [bsd_rx_loop, if_neg hn]
      exact ih acc

/-- If some list entry matches the interface with non-NULL data, the BSD
loop reports success. -/
lemma bsd_loop_found (iface : String) (l : List IfEntry) :
    ∀ (acc : Nat) (ok : Bool),
      (∃ e ∈ l, e.ifa_name = iface ∧ e.ifa_data ≠ none) →
      (bsd_rx_loop iface acc ok l).2 = true := by
  induction l with
  | nil => intro acc ok h; simp at h
  | cons e t ih =>
    intro acc ok h
    by_cases hn : e.ifa_name = iface
    · rw [bsd_rx_loop, if_pos hn]
      cases hd : e.ifa_data with
      | some ifd => exact bsd_loop_ok_true iface t _
      | none =>
        have ht : ∃ x ∈ t, x.ifa_name = iface ∧ x.ifa_data ≠ none := by
          rcases h with ⟨x, hx, hprop⟩
          rcases List.mem_cons.mp hx with rfl | hxt
          · exact absurd hd hprop.2
          · exact ⟨x, hxt, hprop⟩
        exact ih acc ok ht
    · rw [bsd_rx_loop, if_neg hn]
      have ht : ∃ x ∈ t, x.ifa_name = iface ∧ x.ifa_data ≠ none := by
        rcases h with ⟨x, hx, hprop⟩
        rcases List.mem_cons.mp hx with rfl | hxt
        · exact absurd hprop.1 hn
        · exact ⟨x, hxt, hprop⟩
      exact ih acc ok ht

/-- C4 counterexample: a BSD call whose getifaddrs list does not contain
the interface is a failed read, yet it overwrites the remembered
previous sample 100 with 0 instead of leaving it unchanged. -/
theorem netspeed_c4_counterexample :
    netspeed_rx_bsd (some []) 1000 "em0" 100 = (none, 0) ∧ (0 : Nat) ≠ 100 := by
  exact ⟨rfl, by decide⟩

/-- C4 amended: on Linux every failed read (path formatting, file read
or parse failure) leaves the previous-sample value unchanged, and a
later successful read computes its delta against that last good value;
on the BSD variant a getifaddrs failure also leaves it unchanged, but
when getifaddrs succeeds and the interface is not found the previous
sample is overwritten with 0 (the unset sentinel). -/
theorem netspeed_c4 (interval st c : Nat) (iface : String) (l : List IfEntry) :
    netspeed_rx none interval st = (none, st) ∧
    netspeed_tx none interval st = (none, st) ∧
    netspeed_rx_bsd none interval iface st = (none, st) ∧
    ((∀ e ∈ l, ¬(e.ifa_name = iface ∧ e.ifa_data ≠ none)) →
      netspeed_rx_bsd (some l) interval iface st = (none, 0)) ∧
    (st ≠ 0 → (netspeed_rx (some c) interval st).1 =
      some (fmt_human (netspeed_rate c st interval) 1024)) := by
  refine ⟨rfl, rfl, rfl, ?_, ?_⟩
  · intro h
    have hloop : bsd_rx_loop iface 0 false l = (0, false) :=
      bsd_loop_not_found iface l 0 false h
    simp [netspeed_rx_bsd, hloop]
  · intro h
    exact netspeed_rx_some_rate c interval st h

/-- C4 witness: the amended claim evaluated at concrete inputs, with the
interface-not-found case taken on the empty getifaddrs list. -/
theorem netspeed_c4_witness :
    netspeed_rx none 1000 7 = (none, 7) ∧
    netspeed_tx none 1000 7 = (none, 7) ∧
    netspeed_rx_bsd none 1000 "em0" 7 = (none, 7) ∧
    netspeed_rx_bsd (some []) 1000 "em0" 7 = (none, 0) ∧
    (netspeed_rx (some 9) 1000 7).1 =
      some (fmt_human (netspeed_rate 9 7 1000) 1024) :=
  ⟨(netspeed_c4 1000 7 9 "em0" []).1, (netspeed_c4 1000 7 9 "em0" []).2.1,
   (netspeed_c4 1000 7 9 "em0" []).2.2.1,
   (netspeed_c4 1000 7 9 "em0" []).2.2.2.1 (by simp),
   (netspeed_c4 1000 7 9 "em0" []).2.2.2.2 (by decide)⟩

/-- C5 counterexample: from the start state, a first successful read
whose counter value is 0 leaves the stored sample at 0, i.e. the
machine stays in NoSampleYet: the next successful read still returns
NULL, contradicting the claimed transition to HaveSample on the first
successful read. -/
theorem netspeed_c5_counterexample :
    (netspeed_rx (some 0) 1000 0).2 = 0 ∧
    (netspeed_rx (some 5) 1000 (netspeed_rx (some 0) 1000 0).2).1 = none :=
  ⟨rfl, rfl⟩

/-- C5 amended: with HaveSample meaning a nonzero stored sample, a
successful read of a nonzero counter moves the machine to HaveSample
and, on Linux, a failed read never leaves HaveSample; but a successful
read of counter value 0 puts the machine back to NoSampleYet, and on
the BSD variant an interface-not-found read failure also resets it to
NoSampleYet. -/
theorem netspeed_c5 (interval st c : Nat) (iface : String) (l : List IfEntry) :
    (c ≠ 0 → (netspeed_rx (some c) interval st).2 ≠ 0) ∧
    (st ≠ 0 → (netspeed_rx none interval st).2 ≠ 0) ∧
    ((netspeed_rx (some 0) interval st).2 = 0) ∧
    ((∀ e ∈ l, ¬(e.ifa_name = iface ∧ e.ifa_data ≠ none)) → st ≠ 0 →
      (netspeed_rx_bsd (some l) interval iface st).2 = 0) := by
  refine ⟨?_, ?_, ?_, ?_⟩
  · intro h
    rw [netspeed_rx_state_some]
    exact h
  · intro h
    exact h
  · by_cases h : st = 0 <;> simp [netspeed_rx, h]
  · intro h hst
    have hloop : bsd_rx_loop iface 0 false l = (0, false) :=
      bsd_loop_not_found iface l 0 false h
    simp [netspeed_rx_bsd, hloop]

/-- C5 witness: the amended claim evaluated at concrete inputs. -/
theorem netspeed_c5_witness :
    (netspeed_rx (some 7) 1000 0).2 ≠ 0 ∧
    (netspeed_rx none 1000 7).2 ≠ 0 ∧
    (netspeed_rx (some 0) 1000 7).2 = 0 ∧
    (netspeed_rx_bsd (some []) 1000 "em0" 7).2 = 0 :=
  ⟨(netspeed_c5 1000 0 7 "em0" []).1 (by decide),
   (netspeed_c5 1000 7 7 "em0" []).2.1 (by decide),
   (netspeed_c5 1000 7 7 "em0" []).2.2.1,
   (netspeed_c5 1000 7 7 "em0" []).2.2.2 (by simp) (by decide)⟩

/-- C6: a call returns NULL exactly when the counter source is
unreadable or no previous sample exists: on Linux the output is NULL
iff the acquisition failed or the stored sample is the unset sentinel;
on the BSD variant iff getifaddrs failed, or no list entry matches the
interface with non-NULL data, or the stored sample is the sentinel.
Every failure is this silent no-value result; the model is a total
function, so no call faults or retries. -/
theorem netspeed_c6 (read : Option Nat) (interval st : Nat) (iface : String)
    (l : List IfEntry) :
    ((netspeed_rx read interval st).1 = none ↔ read = none ∨ st = 0) ∧
    ((netspeed_tx read interval st).1 = none ↔ read = none ∨ st = 0) ∧
    ((netspeed_rx_bsd none interval iface st).1 = none) ∧
    ((netspeed_rx_bsd (some l) interval iface st).1 = none ↔
      (∀ e ∈ l, ¬(e.ifa_name = iface ∧ e.ifa_data ≠ none)) ∨ st = 0) := by
  refine ⟨?_, ?_, rfl, ?_⟩
  · cases read with
    | none => simp [netspeed_rx]
    | some c => by_cases h : st = 0 <;> simp [netspeed_rx, h]
  · cases read with
    | none => simp [netspeed_tx]
    | some c => by_cases h : st = 0 <;> simp [netspeed_tx, h]
  · constructor
    · intro hnone
      by_cases hall : ∀ e ∈ l, ¬(e.ifa_name = iface ∧ e.ifa_data ≠ none)
      · exact Or.inl hall
      · right
        push_neg at hall
        rcases hall with ⟨e, he, hprop⟩
        have hok : (bsd_rx_loop iface 0 false l).2 = true :=
          bsd_loop_found iface l 0 false ⟨e, he, hprop⟩
        by_contra hst
        simp [netspeed_rx_bsd, hok, hst] at hnone
    · intro h
      rcases h with hall | hst
      · have hloop : bsd_rx_loop iface 0 false l = (0, false) :=
          bsd_loop_not_found iface l 0 false hall
        simp [netspeed_rx_bsd, hloop]
      · by_cases hok : (bsd_rx_loop iface 0 false l).2 = false
        · simp [netspeed_rx_bsd, hok]
        · have hok2 : (bsd_rx_loop iface 0 false l).2 = true := by
            cases hb2 : (bsd_rx_loop iface 0 false l).2
            · exact absurd hb2 hok
            · rfl
          simp [netspeed_rx_bsd, hok2, hst]

/-- Unfolding of fmt_level in the scaling step. -/
lemma fmt_level_step (num base : Nat) (h1 : 2 ≤ base) (h2 : base ≤ num) :
    fmt_level num base = fmt_level (num / base) base + 1 := by
  rw [fmt_level]
  exact dif_pos ⟨h1, h2⟩

/-- Unfolding of fmt_level at the base case. -/
lemma fmt_level_base (num base : Nat) (h : ¬(2 ≤ base ∧ base ≤ num)) :
    fmt_level num base = 0 := by
  rw [fmt_level]
  exact dif_neg h

/-- The chosen unit level scales the magnitude strictly below the base. -/
lemma fmt_level_div_lt (base : Nat) (hb : 2 ≤ base) (num : Nat) :
    num / base ^ fmt_level num base < base := by
  induction num using Nat.strong_induction_on with
  | _ n ih =>
    by_cases h : base ≤ n
    · rw [fmt_level_step n base hb h, pow_succ', ← Nat.div_div_eq_div_mul]
      exact ih (n / base) (Nat.div_lt_self (by omega) (by omega))
    · rw [fmt_level_base n base (fun hc => h hc.2), pow_zero, Nat.div_one]
      omega

/-- Multiplying by the base raises the unit level by exactly one. -/
lemma fmt_level_mul (base x : Nat) (hb : 2 ≤ base) (hx : 0 < x) :
    fmt_level (base * x) base = fmt_level x base + 1 := by
  have hle : base ≤ base * x := by
    have h1 : base * 1 ≤ base * x := Nat.mul_le_mul (Nat.le_refl base) hx
    simpa using h1
  rw [fmt_level_step (base * x) base hb hle,
      Nat.mul_div_cancel_left x (by omega : 0 < base)]

/-- Multiplying by the base leaves the one-decimal scaled magnitude
unchanged. -/
lemma fmt_scaled_mul (base x : Nat) (hb : 2 ≤ base) :
    fmt_scaled (base * x) base = fmt_scaled x base := by
  rcases Nat.eq_zero_or_pos x with h0 | hx
  · subst h0
    rw [Nat.mul_zero]
  · unfold fmt_scaled
    rw [fmt_level_mul base x hb hx, pow_succ', Nat.mul_assoc,
        Nat.mul_div_mul_left _ _ (by omega : 0 < base)]

/-- Multiplying by the base leaves the displayed numeral unchanged. -/
lemma fmt_numeral_mul (base x : Nat) (hb : 2 ≤ base) :
    fmt_numeral (base * x) base = fmt_numeral x base := by
  unfold fmt_numeral
  rw [fmt_scaled_mul base x hb]

/-- C9: fmt_human is idempotent under unit scaling: formatting 1024 * x
with base 1024 yields the same numeral as formatting x, displayed one
unit level higher; and the chosen unit always scales the displayed
magnitude strictly below the base. -/
theorem netspeed_c9 (x : Nat) :
    fmt_numeral (1024 * x) 1024 = fmt_numeral x 1024 ∧
    (0 < x → fmt_level (1024 * x) 1024 = fmt_level x 1024 + 1) ∧
    1024 * x / 1024 ^ fmt_level (1024 * x) 1024 < 1024 ∧
    (0 < x → fmt_human (1024 * x) 1024 =
      fmt_numeral x 1024 ++ " " ++ unit_suffix (fmt_level x 1024 + 1)) := by
  refine ⟨fmt_numeral_mul 1024 x (by omega), ?_,
    fmt_level_div_lt 1024 (by omega) (1024 * x), ?_⟩
  · intro hx
    exact fmt_level_mul 1024 x (by omega) hx
  · intro hx
    unfold fmt_human
    rw [fmt_numeral_mul 1024 x (by omega), fmt_level_mul 1024 x (by omega) hx]

/-- C9 witness: the scaling law evaluated at x = 3. -/
theorem netspeed_c9_witness :
    fmt_numeral (1024 * 3) 1024 = fmt_numeral 3 1024 ∧
    fmt_level (1024 * 3) 1024 = fmt_level 3 1024 + 1 ∧
    1024 * 3 / 1024 ^ fmt_level (1024 * 3) 1024 < 1024 ∧
    fmt_human (1024 * 3) 1024 =
      fmt_numeral 3 1024 ++ " " ++ unit_suffix (fmt_level 3 1024 + 1) :=
  ⟨(netspeed_c9 3).1, (netspeed_c9 3).2.1 (by decide), (netspeed_c9 3).2.2.1,
   (netspeed_c9 3).2.2.2 (by decide)⟩

/-- C1: for a sequence of successful counter reads threaded through the
static state from the unset sentinel, the output at tick j+2 (1-based)
is the human-formatted value of (c_(j+2) - c_(j+1)) * 1000 / interval
with base 1024, provided the previous sample is nonzero, the counter
did not wrap, and the product does not overflow uintmax_t; the same
holds for netspeed_tx. -/
theorem netspeed_c1 (cs : List Nat) (interval j x y : Nat)
    (hx : cs[j]? = some x) (hy : cs[j + 1]? = some y) (hx0 : x ≠ 0)
    (hxy : x ≤ y) (hof : (y - x) * 1000 < UINTMAX) :
    (netspeed_rx_run interval (cs.map some) 0).1[j + 1]? =
      some (some (fmt_human ((y - x) * 1000 / interval) 1024)) ∧
    (netspeed_tx_run interval (cs.map some) 0).1[j + 1]? =
      some (some (fmt_human ((y - x) * 1000 / interval) 1024)) := by
  have h1 := netspeed_rx_run_get interval j cs 0 x y hx hy
  have h2 : (netspeed_rx (some y) interval x).1 =
      some (fmt_human ((y - x) * 1000 / interval) 1024) := by
    rw [netspeed_rx_some_rate y interval x hx0,
        netspeed_rate_exact x y interval hxy hof]
  constructor
  · rw [h1, h2]
  · rw [netspeed_tx_run_eq_rx_run, h1, h2]

/-- C1 witness at the worked example of the spec: reads 500000 then
1550000 with interval 1000 ms give a second-tick rate of 1050000 B/s. -/
theorem netspeed_c1_witness :
    (netspeed_rx_run 1000 ([500000, 1550000].map some) 0).1[0 + 1]? =
      some (some (fmt_human ((1550000 - 500000) * 1000 / 1000) 1024)) ∧
    (netspeed_tx_run 1000 ([500000, 1550000].map some) 0).1[0 + 1]? =
      some (some (fmt_human ((1550000 - 500000) * 1000 / 1000) 1024)) :=
  netspeed_c1 [500000, 1550000] 1000 0 500000 1550000 (by decide) (by decide)
    (by decide) (by decide) (by decide)
